import Mathlib

/-!
Shallow embedding of the incident-labor-calculator (`src/main.py`) core logic:
the duration parser (`parse_duration`), the duration formatter
(`minutes_to_hours`), the incident resolver (the `str.extract` /`fillna` pair
in `main`), the per-participant aggregation (`groupby` + `transform` in
`main`), and the cost roll-up (`calculate_total_labor_cost`).

Python strings are modelled as Lean `String`/`List Char`; the regex character
classes `\d` and `\s` are modelled over their ASCII meaning; `dict` values are
association lists; pandas `NaN` propagation for missing wages is modelled with
`Option`, and numeric cost arithmetic with `ℚ`.
-/

/-- ASCII model of the regex class `\d`. -/
def isDigitCh (c : Char) : Bool := '0' ≤ c && c ≤ '9'

/-- ASCII model of the regex class `\s`. -/
def isSpaceCh (c : Char) : Bool :=
  c = ' ' || c = '\t' || c = '\n' || c = '\r' || c = '\x0b' || c = '\x0c'

/-- Numeric value of one ASCII digit. -/
def digitVal (c : Char) : ℕ := c.toNat - '0'.toNat

/-- Python `int` applied to a non-empty decimal digit string. -/
def digitsToNat (l : List Char) : ℕ := l.foldl (fun acc c => acc * 10 + digitVal c) 0

/-- First match of the Python regex `(\d+)\s*LIT` in a character list, as used
by `re.findall(...)[0]` in `parse_duration` (`src/main.py` lines 75-77): the
maximal digit run at the leftmost position where the run, followed by optional
whitespace, is followed by the literal `lit`.  The `prevDigit` flag records
whether the previous character was a digit, so that only maximal runs are
tried (positions inside a run see the same tail and cannot match earlier). -/
def scanUnit (lit : List Char) : Bool → List Char → Option ℕ
  | _, [] => none
  | prevDigit, c :: rest =>
    if isDigitCh c && !prevDigit then
      let run := c :: rest.takeWhile isDigitCh
      let after := rest.dropWhile isDigitCh
      if lit.isPrefixOf (after.dropWhile isSpaceCh) then some (digitsToNat run)
      else scanUnit lit true rest
    else scanUnit lit (isDigitCh c) rest

/-- Literal tail of the hour pattern `(\d+)\s*h`. -/
def hoursLit : List Char := ['h']

/-- Literal tail of the minute pattern `(\d+)\s*min`. -/
def minutesLit : List Char := ['m', 'i', 'n']

/-- Literal tail of the second pattern `(\d+)\s*s`. -/
def secondsLit : List Char := ['s']

/-- `parse_duration` from `src/main.py` lines 71-84.  `none` models a
`NaN`/absent cell (`pd.isna`); the three units are searched independently and
the seconds term is `seconds // 60 if seconds >= 30 else 0`, exactly as in the
source. -/
def parse_duration : Option String → ℕ
  | none => 0
  | some s =>
    (match scanUnit hoursLit false s.data with
      | some h => h * 60
      | none => 0)
    + (match scanUnit minutesLit false s.data with
      | some m => m
      | none => 0)
    + (match scanUnit secondsLit false s.data with
      | some sec => if 30 ≤ sec then sec / 60 else 0
      | none => 0)

example : parse_duration (some "1h 30min") = 90 := by decide
example : parse_duration (some "45min 40s") = 45 := by decide
example : parse_duration (some "45min 20s") = 45 := by decide
example : parse_duration (some "2h") = 120 := by decide
example : parse_duration (some "59s") = 0 := by decide
example : parse_duration (some "1h 130s") = 62 := by decide
example : parse_duration (some "") = 0 := by decide
example : parse_duration none = 0 := by decide

/-- Little-endian decimal digit characters of `n`, with explicit fuel so the
definition is structurally recursive; `fuel = n` always suffices. -/
def toDigitCharsRev : ℕ → ℕ → List Char
  | 0, _ => []
  | _ + 1, 0 => []
  | fuel + 1, n + 1 => Nat.digitChar ((n + 1) % 10) :: toDigitCharsRev fuel ((n + 1) / 10)

/-- Decimal rendering of a natural number, as Python `str`/`f"{n}"` does. -/
def reprDigits (n : ℕ) : List Char :=
  if n = 0 then ['0'] else (toDigitCharsRev n n).reverse

/-- Python's `f"{n:02d}"` for the minute remainder: zero-pad to two digits. -/
def pad2 (n : ℕ) : List Char :=
  if n < 10 then '0' :: reprDigits n else reprDigits n

/-- `minutes_to_hours` from `src/main.py` lines 86-89:
`f"{minutes // 60}:{minutes % 60:02d}"`. -/
def minutes_to_hours (m : ℕ) : String :=
  String.mk (reprDigits (m / 60) ++ ':' :: pad2 (m % 60))

example : minutes_to_hours 0 = "0:00" := by decide
example : minutes_to_hours 90 = "1:30" := by decide
example : minutes_to_hours 125 = "2:05" := by decide
example : minutes_to_hours 1439 = "23:59" := by decide

/-- One attempted match of the regex `(GV-\d+)` at the head of a character
list: the literal `GV-` followed by a maximal non-empty digit run. -/
def tryGV : List Char → Option (List Char)
  | 'G' :: 'V' :: '-' :: t =>
    if (t.takeWhile isDigitCh).isEmpty then none
    else some ('G' :: 'V' :: '-' :: t.takeWhile isDigitCh)
  | _ => none

/-- Leftmost match of `(GV-\d+)`, as `Series.str.extract` computes it
(`src/main.py` line 119). -/
def resolveScan : List Char → Option (List Char)
  | [] => none
  | c :: rest =>
    match tryGV (c :: rest) with
    | some r => some r
    | none => resolveScan rest

/-- The incident resolver of `src/main.py` lines 119-120: extract the first
`GV-<digits>` match from the raw label, falling back (`fillna`) to the raw
label itself when there is no match. -/
def resolve (label : String) : String :=
  match resolveScan label.data with
  | some r => String.mk r
  | none => label

example : resolve "Weekly Sync GV-1234 notes" = "GV-1234" := by decide
example : resolve "Ad-hoc planning call" = "Ad-hoc planning call" := by decide
example : resolve "GV-2 x" = "GV-2" := by decide
example : resolve "GGV-7" = "GV-7" := by decide
example : resolve "GV-GV-12" = "GV-12" := by decide

/-- One attendance row of the concatenated spreadsheet data: `Incident Info`
(the containing folder name, assigned in `aggregate_excel_files`), `Enviar
e-mail` (the participant), and `Duração` (the raw duration cell, `none` for a
missing value). -/
structure AttendanceRow where
  incidentLabel : String
  participantId : String
  rawDuration : Option String
deriving DecidableEq

/-- The grouping key of `src/main.py` line 122: resolved `Incident ID` and
participant e-mail. -/
def keyOf (r : AttendanceRow) : String × String :=
  (resolve r.incidentLabel, r.participantId)

/-- First-occurrence deduplication with an explicit list of already-seen
elements (the distinct values underlying a pandas groupby / `nunique`). -/
def dedupAux {α : Type} [DecidableEq α] (seen : List α) : List α → List α
  | [] => []
  | k :: rest => if k ∈ seen then dedupAux seen rest else k :: dedupAux (k :: seen) rest

/-- Distinct elements of a list, first occurrence kept. -/
def dedupFirst {α : Type} [DecidableEq α] (l : List α) : List α := dedupAux [] l

/-- Insert into a list ordered by the strict comparison `lt`. -/
def insortBy {α : Type} (lt : α → α → Bool) (x : α) : List α → List α
  | [] => [x]
  | y :: ys => if lt x y then x :: y :: ys else y :: insortBy lt x ys

/-- Insertion sort by the strict comparison `lt` (pandas `groupby` sorts its
group keys ascending). -/
def sortBy {α : Type} (lt : α → α → Bool) : List α → List α
  | [] => []
  | x :: xs => insortBy lt x (sortBy lt xs)

/-- Lexicographic comparison of character lists by code point — the order
Python uses on strings. -/
def charListLt : List Char → List Char → Bool
  | [], [] => false
  | [], _ :: _ => true
  | _ :: _, [] => false
  | a :: as, b :: bs => if a < b then true else if a = b then charListLt as bs else false

/-- Python string comparison. -/
def strLt (a b : String) : Bool := charListLt a.data b.data

/-- Ascending order on group keys: lexicographic on the two strings, matching
the sort order of a pandas MultiIndex of Python strings. -/
def keyLt (a b : String × String) : Bool :=
  if strLt a.1 b.1 then true else if a.1 = b.1 then strLt a.2 b.2 else false

/-- The sorted distinct (Incident ID, participant) keys of the groupby on
`src/main.py` line 122. -/
def groupKeys (rows : List AttendanceRow) : List (String × String) :=
  sortBy keyLt (dedupFirst (rows.map keyOf))

/-- The rows belonging to one group key. -/
def rowsWithKey (rows : List AttendanceRow) (k : String × String) : List AttendanceRow :=
  rows.filter (fun r => keyOf r = k)

/-- One row of `aggregated_df` before the `Meetings Attended` assignment:
group key plus summed parsed minutes. -/
structure ParticipantAggregate where
  incidentId : String
  participantId : String
  totalMinutes : ℕ
deriving DecidableEq

/-- `src/main.py` line 122: group by (Incident ID, e-mail), sum the parsed
`Duration in minutes`, `reset_index`; one output row per sorted distinct
key. -/
def aggregateRows (rows : List AttendanceRow) : List ParticipantAggregate :=
  (groupKeys rows).map (fun k =>
    ⟨k.1, k.2, ((rowsWithKey rows k).map (fun r => parse_duration r.rawDuration)).sum⟩)

/-- pandas `nunique`: number of distinct values. -/
def countDistinct (l : List String) : ℕ := (dedupFirst l).length

/-- `src/main.py` line 123, right-hand side:
`df.groupby([...])['Incident Info'].transform('nunique')` — a column aligned
with `df` (one entry per input row), each entry the number of distinct
`Incident Info` labels in that row's group. -/
def transformNunique (rows : List AttendanceRow) : List ℕ :=
  rows.map (fun r => countDistinct ((rowsWithKey rows (keyOf r)).map (·.incidentLabel)))

/-- `src/main.py` line 123, the assignment: the transform column (indexed
0..N-1 like `df`) is assigned to `aggregated_df` (indexed 0..G-1 after
`reset_index`), so pandas index alignment keeps its first G entries — the
value stored at sorted group position `i` is the nunique of the group of
input row `i`, not of group `i`. -/
def meetingsAttendedCol (rows : List AttendanceRow) : List ℕ :=
  (transformNunique rows).take (groupKeys rows).length

/-- `aggregated_df` after `src/main.py` line 123: each sorted group paired
with its `Meetings Attended` entry. -/
def perParticipantOutput (rows : List AttendanceRow) : List (ParticipantAggregate × ℕ) :=
  (aggregateRows rows).zip (meetingsAttendedCol rows)

/-- The `wage_info.json` content: the `employees` dict (participant → role)
and the `wages` dict (role → hourly wage), as association lists. -/
structure RoleInfo where
  employees : List (String × String)
  wages : List (String × ℚ)

/-- Python dict lookup, first binding wins. -/
def alookup {β : Type} : List (String × β) → String → Option β
  | [], _ => none
  | (k, v) :: rest, a => if a = k then some v else alookup rest a

/-- `src/main.py` line 43: `df['Enviar e-mail'].map(wage_info['employees']).fillna('Supplier')`. -/
def rowRole (cfg : RoleInfo) (r : AttendanceRow) : String :=
  (alookup cfg.employees r.participantId).getD "Supplier"

/-- `src/main.py` line 44: `df['Role'].map(wage_info['wages'])`; `none` models
the `NaN` a pandas `map` produces for a key absent from the dict. -/
def rowWage (cfg : RoleInfo) (r : AttendanceRow) : Option ℚ :=
  alookup cfg.wages (rowRole cfg r)

/-- The `Duration in minutes` column (`src/main.py` line 121). -/
def rowMinutes (r : AttendanceRow) : ℕ := parse_duration r.rawDuration

/-- `src/main.py` line 46: `df['Duration in minutes'] / 60 * df['Hourly Wage']`;
a missing wage propagates (`NaN` arithmetic) to a missing cost. -/
def rowCost (cfg : RoleInfo) (r : AttendanceRow) : Option ℚ :=
  (rowWage cfg r).map (fun w => (rowMinutes r : ℚ) / 60 * w)

/-- The grouping key of `src/main.py` line 49: resolved Incident ID and role. -/
def costKey (cfg : RoleInfo) (r : AttendanceRow) : String × String :=
  (resolve r.incidentLabel, rowRole cfg r)

/-- Sorted distinct (Incident ID, Role) keys of the groupby on line 49. -/
def costGroupKeys (rows : List AttendanceRow) (cfg : RoleInfo) : List (String × String) :=
  sortBy keyLt (dedupFirst (rows.map (costKey cfg)))

/-- One `(Incident ID, Role)` group of `calculate_total_labor_cost`:
summed cost and summed minutes. -/
structure IncidentCostAggregate where
  incidentId : String
  role : String
  totalCost : ℚ
  totalDuration : ℕ
deriving DecidableEq

/-- `calculate_total_labor_cost` from `src/main.py` lines 41-52, restricted to
the grouped sums the claims are about: per (Incident ID, Role), the sum of
`Cost` and the sum of `Duration in minutes`.  pandas `sum` skips `NaN`
entries, so rows whose role has no wage contribute nothing to `Total_Cost`
(modelled by `filterMap id` over the optional costs) while their minutes still
enter `Total_Duration`.  No code path of the source raises for a missing wage,
so the function is total. -/
def calculate_total_labor_cost (rows : List AttendanceRow) (cfg : RoleInfo) :
    List IncidentCostAggregate :=
  (costGroupKeys rows cfg).map (fun k =>
    let grp := rows.filter (fun r => costKey cfg r = k)
    ⟨k.1, k.2, ((grp.map (rowCost cfg)).filterMap id).sum, (grp.map rowMinutes).sum⟩)

theorem mem_dedupAux {α : Type} [DecidableEq α] {a : α} :
    ∀ (l seen : List α), a ∈ dedupAux seen l ↔ a ∈ l ∧ a ∉ seen := by
  intro l
  induction l with
  | nil => intro seen; simp [dedupAux]
  | cons k rest ih =>
    intro seen
    by_cases hk : k ∈ seen
    · simp only [dedupAux, if_pos hk, ih, List.mem_cons]
      constructor
      · rintro ⟨h1, h2⟩; exact ⟨Or.inr h1, h2⟩
      · rintro ⟨h1 | h1, h2⟩
        · exact absurd (h1 ▸ hk) h2
        · exact ⟨h1, h2⟩
    · simp only [dedupAux, if_neg hk, List.mem_cons, ih, List.mem_cons]
      constructor
      · rintro (h | ⟨h1, h2⟩)
        · exact ⟨Or.inl h, h ▸ hk⟩
        · exact ⟨Or.inr h1, fun hs => h2 (Or.inr hs)⟩
      · rintro ⟨h1 | h1, h2⟩
        · exact Or.inl h1
        · by_cases hak : a = k
          · exact Or.inl hak
          · exact Or.inr ⟨h1, fun hs => (hs.elim hak fun h => h2 h)⟩

theorem mem_dedupFirst {α : Type} [DecidableEq α] {a : α} {l : List α} :
    a ∈ dedupFirst l ↔ a ∈ l := by
  simp [dedupFirst, mem_dedupAux]

theorem mem_insortBy {α : Type} {lt : α → α → Bool} {a x : α} :
    ∀ l : List α, a ∈ insortBy lt x l ↔ a = x ∨ a ∈ l := by
  intro l
  induction l with
  | nil => simp [insortBy]
  | cons y ys ih =>
    by_cases h : lt x y
    · simp [insortBy, h, List.mem_cons]
    · simp only [insortBy, if_neg h, List.mem_cons, ih]
      tauto

theorem mem_sortBy {α : Type} {lt : α → α → Bool} {a : α} :
    ∀ l : List α, a ∈ sortBy lt l ↔ a ∈ l := by
  intro l
  induction l with
  | nil => simp [sortBy]
  | cons x xs ih => simp [sortBy, mem_insortBy, ih]

theorem mem_groupKeys {k : String × String} {rows : List AttendanceRow} :
    k ∈ groupKeys rows ↔ k ∈ rows.map keyOf := by
  simp [groupKeys, mem_sortBy, mem_dedupFirst]

/-- Specification of one aggregated group: membership in the aggregator's
output determines the key and equates `totalMinutes` with the sum of parsed
durations over exactly the rows carrying that key. -/
theorem aggregateRows_spec {rows : List AttendanceRow} {g : ParticipantAggregate}
    (hg : g ∈ aggregateRows rows) :
    g.totalMinutes =
      ((rows.filter (fun r => keyOf r = (g.incidentId, g.participantId))).map
        (fun r => parse_duration r.rawDuration)).sum := by
  rcases List.mem_map.mp hg with ⟨k, _, hk⟩
  subst hk
  rfl

/-- Every input row's key is represented in the aggregator's output. -/
theorem aggregateRows_complete {rows : List AttendanceRow} {r : AttendanceRow}
    (hr : r ∈ rows) :
    ∃ g ∈ aggregateRows rows,
      g.incidentId = (keyOf r).1 ∧ g.participantId = (keyOf r).2 := by
  refine ⟨⟨(keyOf r).1, (keyOf r).2,
    ((rowsWithKey rows (keyOf r)).map (fun r => parse_duration r.rawDuration)).sum⟩, ?_, rfl, rfl⟩
  have hmem : keyOf r ∈ groupKeys rows :=
    mem_groupKeys.mpr (List.mem_map_of_mem keyOf hr)
  have := List.mem_map_of_mem
    (fun k => (⟨k.1, k.2,
      ((rowsWithKey rows k).map (fun r => parse_duration r.rawDuration)).sum⟩ :
      ParticipantAggregate)) hmem
  simpa [aggregateRows] using this

theorem filterMap_id_map_eq {α β : Type} (f : α → Option β) (d : β) :
    ∀ l : List α,
      (l.map f).filterMap id =
        (l.filter (fun a => (f a).isSome)).map (fun a => (f a).getD d) := by
  intro l
  induction l with
  | nil => rfl
  | cons x xs ih =>
    cases hfx : f x with
    | none => simp [hfx, ih]
    | some v => simp [hfx, ih]

theorem costValueList_eq (cfg : RoleInfo) :
    ∀ l : List AttendanceRow,
      (l.filter (fun a => (rowCost cfg a).isSome)).map (fun a => (rowCost cfg a).getD 0) =
        (l.filter (fun r => (rowWage cfg r).isSome)).map
          (fun r => (rowMinutes r : ℚ) / 60 * (rowWage cfg r).getD 0) := by
  intro l
  induction l with
  | nil => rfl
  | cons x xs ih =>
    cases hw : rowWage cfg x with
    | none => simpa [rowCost, hw] using ih
    | some w =>
      simp only [List.filter_cons]
      simpa [rowCost, hw] using ih

theorem mem_costGroupKeys {k : String × String} {rows : List AttendanceRow}
    {cfg : RoleInfo} :
    k ∈ costGroupKeys rows cfg ↔ k ∈ rows.map (costKey cfg) := by
  simp [costGroupKeys, mem_sortBy, mem_dedupFirst]

/-- Specification of one cost group: `Total_Duration` sums the parsed minutes
of exactly the rows with that (Incident ID, Role) key, while `Total_Cost`
sums `minutes/60 × wage` over only those rows of the group whose role has a
defined wage — rows with a missing wage are skipped by the `NaN`-skipping
sum. -/
theorem calculate_total_labor_cost_spec {rows : List AttendanceRow}
    {cfg : RoleInfo} {g : IncidentCostAggregate}
    (hg : g ∈ calculate_total_labor_cost rows cfg) :
    g.totalCost =
      (((rows.filter (fun r => costKey cfg r = (g.incidentId, g.role))).filter
          (fun r => (rowWage cfg r).isSome)).map
        (fun r => (rowMinutes r : ℚ) / 60 * (rowWage cfg r).getD 0)).sum
    ∧ g.totalDuration =
      ((rows.filter (fun r => costKey cfg r = (g.incidentId, g.role))).map
        rowMinutes).sum := by
  rcases List.mem_map.mp hg with ⟨k, _, hk⟩
  subst hk
  refine ⟨?_, rfl⟩
  show (((rows.filter (fun r => costKey cfg r = k)).map (rowCost cfg)).filterMap id).sum
    = (((rows.filter (fun r => costKey cfg r = k)).filter
          (fun r => (rowWage cfg r).isSome)).map
        (fun r => (rowMinutes r : ℚ) / 60 * (rowWage cfg r).getD 0)).sum
  rw [filterMap_id_map_eq (rowCost cfg) 0, costValueList_eq]

/-- Every input row's (Incident ID, Role) key is represented in the cost
calculator's output. -/
theorem calculate_total_labor_cost_complete {rows : List AttendanceRow}
    {cfg : RoleInfo} {r : AttendanceRow} (hr : r ∈ rows) :
    ∃ g ∈ calculate_total_labor_cost rows cfg,
      g.incidentId = (costKey cfg r).1 ∧ g.role = (costKey cfg r).2 := by
  have hmem : costKey cfg r ∈ costGroupKeys rows cfg :=
    mem_costGroupKeys.mpr (List.mem_map_of_mem (costKey cfg) hr)
  refine ⟨_, List.mem_map_of_mem _ hmem, rfl, rfl⟩

/-- If the pattern `GV-<digits>` matches at no position of the label, the scan
finds nothing. -/
theorem resolveScan_eq_none :
    ∀ l : List Char, (∀ i, tryGV (l.drop i) = none) → resolveScan l = none := by
  intro l
  induction l with
  | nil => intro _; rfl
  | cons c rest ih =>
    intro h
    have h0 : tryGV (c :: rest) = none := h 0
    simp only [resolveScan, h0]
    exact ih (fun i => h (i + 1))

/-- If the pattern `GV-<digits>` matches at position `i` of the label and at
no earlier position, the scan returns that match: first match wins. -/
theorem resolveScan_eq_some :
    ∀ (l : List Char) (i : ℕ) (r : List Char), tryGV (l.drop i) = some r →
      (∀ j, j < i → tryGV (l.drop j) = none) → resolveScan l = some r := by
  intro l
  induction l with
  | nil =>
    intro i r hmatch _
    simp [List.drop_nil] at hmatch
    cases hmatch
  | cons c rest ih =>
    intro i r hmatch hmin
    cases i with
    | zero =>
      simp only [List.drop_zero] at hmatch
      simp [resolveScan, hmatch]
    | succ i =>
      have h0 : tryGV (c :: rest) = none := hmin 0 (Nat.succ_pos i)
      simp only [resolveScan, h0]
      exact ih i r hmatch (fun j hj => hmin (j + 1) (Nat.succ_lt_succ hj))

/-- A successful `tryGV` output is the literal `GV-` followed by a non-empty
run of digits. -/
theorem tryGV_some_shape :
    ∀ (l r : List Char), tryGV l = some r →
      ∃ ds, ds ≠ [] ∧ ds.all isDigitCh ∧ r = 'G' :: 'V' :: '-' :: ds := by
  intro l r h
  rw [tryGV.eq_def] at h
  split at h
  · rename_i t
    by_cases hrun : (t.takeWhile isDigitCh).isEmpty
    · rw [if_pos hrun] at h
      cases h
    · rw [if_neg hrun] at h
      refine ⟨t.takeWhile isDigitCh, ?_, ?_, ?_⟩
      · rw [List.isEmpty_iff] at hrun
        exact hrun
      · exact List.all_eq_true.mpr fun c hc => List.mem_takeWhile_imp hc
      · exact (Option.some.injEq _ _ ▸ h).symm
  · cases h

theorem digitChar_isDigit : ∀ d : ℕ, d < 10 → isDigitCh (Nat.digitChar d) = true := by
  decide

theorem mem_toDigitCharsRev_isDigit :
    ∀ (fuel n : ℕ) (c : Char), c ∈ toDigitCharsRev fuel n → isDigitCh c = true := by
  intro fuel
  induction fuel with
  | zero => intro n c hc; cases hc
  | succ fuel ih =>
    intro n c hc
    cases n with
    | zero => cases hc
    | succ n =>
      rcases List.mem_cons.mp hc with h | h
      · exact h ▸ digitChar_isDigit _ (Nat.mod_lt _ (by omega))
      · exact ih _ c h

theorem mem_reprDigits_ne_colon {n : ℕ} {c : Char} (hc : c ∈ reprDigits n) : c ≠ ':' := by
  intro hcolon
  subst hcolon
  unfold reprDigits at hc
  by_cases hn : n = 0
  · rw [if_pos hn] at hc
    simp at hc
  · rw [if_neg hn] at hc
    have := mem_toDigitCharsRev_isDigit n n ':' (List.mem_reverse.mp hc)
    simp [isDigitCh] at this

theorem append_colon_cancel :
    ∀ (l1 l2 t1 t2 : List Char), (∀ c ∈ l1, c ≠ ':') → (∀ c ∈ l2, c ≠ ':') →
      l1 ++ ':' :: t1 = l2 ++ ':' :: t2 → l1 = l2 ∧ t1 = t2 := by
  intro l1
  induction l1 with
  | nil =>
    intro l2 t1 t2 _ h2 heq
    cases l2 with
    | nil => exact ⟨rfl, by simpa using heq⟩
    | cons d l2 =>
      exfalso
      have : ':' = d := by simpa using congrArg (fun l => l.headD ' ') heq
      exact h2 d (List.mem_cons_self d l2) this.symm
  | cons c l1 ih =>
    intro l2 t1 t2 h1 h2 heq
    cases l2 with
    | nil =>
      exfalso
      have : c = ':' := by simpa using congrArg (fun l => l.headD ' ') heq
      exact h1 c (List.mem_cons_self c l1) this
    | cons d l2 =>
      simp only [List.cons_append, List.cons.injEq] at heq
      obtain ⟨hcd, htail⟩ := heq
      obtain ⟨hl, ht⟩ := ih l2 t1 t2 (fun x hx => h1 x (List.mem_cons_of_mem c hx))
        (fun x hx => h2 x (List.mem_cons_of_mem d hx)) htail
      exact ⟨by rw [hcd, hl], ht⟩

theorem reprDigits_inj_lt24 :
    ∀ a : ℕ, a < 24 → ∀ b : ℕ, b < 24 → reprDigits a = reprDigits b → a = b := by
  decide

theorem pad2_inj_lt60 :
    ∀ a : ℕ, a < 60 → ∀ b : ℕ, b < 60 → pad2 a = pad2 b → a = b := by
  decide

/-- The formatter is injective on the minute counts of a single day. -/
theorem minutes_to_hours_injOn {m1 m2 : ℕ} (h1 : m1 ≤ 1439) (h2 : m2 ≤ 1439)
    (he : minutes_to_hours m1 = minutes_to_hours m2) : m1 = m2 := by
  have hdata : reprDigits (m1 / 60) ++ ':' :: pad2 (m1 % 60)
      = reprDigits (m2 / 60) ++ ':' :: pad2 (m2 % 60) :=
    congrArg String.data he
  obtain ⟨hdiv, hmod⟩ := append_colon_cancel _ _ _ _
    (fun c hc => mem_reprDigits_ne_colon hc) (fun c hc => mem_reprDigits_ne_colon hc) hdata
  have hd : m1 / 60 = m2 / 60 :=
    reprDigits_inj_lt24 _ (by omega) _ (by omega) hdiv
  have hm : m1 % 60 = m2 % 60 :=
    pad2_inj_lt60 _ (Nat.mod_lt _ (by omega)) _ (Nat.mod_lt _ (by omega)) hmod
  omega

/-- C1 fails on the code: the seconds term is `seconds // 60 if seconds >= 30
else 0`, so `parse("45min 40s")` is `45`, not `46` as the claim states, and a
seconds value of `130` contributes two whole minutes, not at most one. -/
theorem C1_counterexample :
    parse_duration (some "45min 40s") = 45
    ∧ parse_duration (some "45min 40s") ≠ 46
    ∧ parse_duration (some "1h 130s") = 62 := by
  decide

/-- C1 (amended): for every duration string whose first hour, minute and
second matches are as given (an absent unit contributes 0), the parser
returns `h*60 + m + (s/60 if s ≥ 30 else 0)`: seconds from 30 to 59
contribute nothing, and in particular `parse("45min 40s") = 45` and
`parse("45min 20s") = 45`. -/
theorem C1_amended_parse_formula :
    (∀ (s : String) (hOpt mOpt sOpt : Option ℕ),
      scanUnit hoursLit false s.data = hOpt →
      scanUnit minutesLit false s.data = mOpt →
      scanUnit secondsLit false s.data = sOpt →
      parse_duration (some s) =
        hOpt.getD 0 * 60 + mOpt.getD 0 +
          (match sOpt with
            | some sec => if 30 ≤ sec then sec / 60 else 0
            | none => 0))
    ∧ parse_duration (some "45min 40s") = 45
    ∧ parse_duration (some "45min 20s") = 45 := by
  refine ⟨?_, by decide, by decide⟩
  intro s hOpt mOpt sOpt h1 h2 h3
  simp only [parse_duration, h1, h2, h3]
  cases hOpt <;> cases mOpt <;> cases sOpt <;> simp [Option.getD]

/-- C1 witness: the amended formula instantiated on `"45min 20s"`, where the
first minute match is 45 and the first second match is 20. -/
theorem C1_amended_parse_formula_witness :
    parse_duration (some "45min 20s") =
      (none : Option ℕ).getD 0 * 60 + (some 45 : Option ℕ).getD 0 +
        (match (some 20 : Option ℕ) with
          | some sec => if 30 ≤ sec then sec / 60 else 0
          | none => 0) :=
  C1_amended_parse_formula.1 "45min 20s" none (some 45) (some 20)
    (by decide) (by decide) (by decide)

/-- C5: the incident resolver returns the first `GV-` + digits match — if the
pattern matches at position `i` and nowhere earlier, the result is exactly
that match, which is `GV-` followed by a non-empty digit run — and returns
the label unchanged when the pattern matches nowhere; including the two
spec examples. -/
theorem C5_incident_resolver :
    resolve "Weekly Sync GV-1234 notes" = "GV-1234"
    ∧ resolve "Ad-hoc planning call" = "Ad-hoc planning call"
    ∧ (∀ label : String, (∀ i, tryGV (label.data.drop i) = none) → resolve label = label)
    ∧ (∀ (label : String) (i : ℕ) (r : List Char),
        tryGV (label.data.drop i) = some r →
        (∀ j, j < i → tryGV (label.data.drop j) = none) →
        resolve label = String.mk r
          ∧ ∃ ds, ds ≠ [] ∧ ds.all isDigitCh ∧ r = 'G' :: 'V' :: '-' :: ds) := by
  refine ⟨by decide, by decide, ?_, ?_⟩
  · intro label h
    unfold resolve
    rw [resolveScan_eq_none label.data h]
  · intro label i r hmatch hmin
    refine ⟨?_, tryGV_some_shape _ r hmatch⟩
    unfold resolve
    rw [resolveScan_eq_some label.data i r hmatch hmin]

/-- C5 witness: on `"a GV-12"` the pattern matches at position 2 and nowhere
earlier, and the resolver returns `GV-12`. -/
theorem C5_incident_resolver_witness :
    resolve "a GV-12" = String.mk ['G', 'V', '-', '1', '2']
    ∧ ∃ ds, ds ≠ [] ∧ ds.all isDigitCh ∧ ['G', 'V', '-', '1', '2'] = 'G' :: 'V' :: '-' :: ds :=
  C5_incident_resolver.2.2.2 "a GV-12" 2 ['G', 'V', '-', '1', '2']
    (by decide) (by decide)

/-- C6: the record aggregator groups rows by (resolved incident, participant);
every output group's `totalMinutes` is the sum of `parse_duration` over
exactly the input rows carrying that key, and every input row's key is
represented in the output. -/
theorem C6_record_aggregator :
    ∀ rows : List AttendanceRow,
      (∀ g ∈ aggregateRows rows,
        g.totalMinutes =
          ((rows.filter (fun r => keyOf r = (g.incidentId, g.participantId))).map
            (fun r => parse_duration r.rawDuration)).sum)
      ∧ (∀ r ∈ rows, ∃ g ∈ aggregateRows rows,
          g.incidentId = resolve r.incidentLabel ∧ g.participantId = r.participantId) := by
  intro rows
  constructor
  · intro g hg
    exact aggregateRows_spec hg
  · intro r hr
    exact aggregateRows_complete hr

/-- C6 witness: two meetings of incident `GV-5` for the same participant sum
to 90 minutes in the single output group. -/
theorem C6_record_aggregator_witness :
    (⟨"GV-5", "a@x.com", 90⟩ : ParticipantAggregate).totalMinutes =
      ((([⟨"GV-5 sync", "a@x.com", some "1h"⟩, ⟨"GV-5 retro", "a@x.com", some "30min"⟩] :
          List AttendanceRow).filter
        (fun r => keyOf r = ("GV-5", "a@x.com"))).map
          (fun r => parse_duration r.rawDuration)).sum :=
  (C6_record_aggregator
    [⟨"GV-5 sync", "a@x.com", some "1h"⟩, ⟨"GV-5 retro", "a@x.com", some "30min"⟩]).1
    ⟨"GV-5", "a@x.com", 90⟩ (by decide)

/-- C7: the duration parser is total — a `None` input and the empty string
give 0, any text in which none of the three unit patterns matches gives 0,
and every result is a non-negative integer. -/
theorem C7_parser_total :
    parse_duration none = 0
    ∧ parse_duration (some "") = 0
    ∧ (∀ s : String,
        scanUnit hoursLit false s.data = none →
        scanUnit minutesLit false s.data = none →
        scanUnit secondsLit false s.data = none →
        parse_duration (some s) = 0)
    ∧ (∀ d : Option String, 0 ≤ (parse_duration d : ℤ)) := by
  refine ⟨by decide, by decide, ?_, ?_⟩
  · intro s h1 h2 h3
    simp [parse_duration, h1, h2, h3]
  · intro d
    exact Int.ofNat_nonneg _

/-- C7 witness: the no-match conjunct instantiated on malformed text with no
hour, minute or second component. -/
theorem C7_parser_total_witness : parse_duration (some "garbage text") = 0 :=
  C7_parser_total.2.2.1 "garbage text" (by decide) (by decide) (by decide)

/-- C8: the duration formatter renders `H:MM` with `H = m / 60` unpadded and
`MM = m % 60` zero-padded to two digits — `format 0 = "0:00"`,
`format 90 = "1:30"`, `format 125 = "2:05"` — and is injective on the minute
counts of one day (0 to 1439). -/
theorem C8_duration_formatter :
    minutes_to_hours 0 = "0:00"
    ∧ minutes_to_hours 90 = "1:30"
    ∧ minutes_to_hours 125 = "2:05"
    ∧ (∀ m1 m2 : ℕ, m1 ≤ 1439 → m2 ≤ 1439 →
        minutes_to_hours m1 = minutes_to_hours m2 → m1 = m2) := by
  refine ⟨by decide, by decide, by decide, ?_⟩
  intro m1 m2 h1 h2 he
  exact minutes_to_hours_injOn h1 h2 he

/-- C8 witness: the injectivity conjunct instantiated at 90 and 90. -/
theorem C8_duration_formatter_witness : (90 : ℕ) = 90 :=
  C8_duration_formatter.2.2.2 90 90 (by decide) (by decide) rfl

/-- C9: an empty row set aggregates to an empty result (both before and after
the `Meetings Attended` column is attached), with no error — the aggregator
is a total function. -/
theorem C9_empty_input :
    aggregateRows [] = [] ∧ perParticipantOutput [] = [] ∧ groupKeys [] = [] := by
  decide

/-- Three rows for one participant: two meetings of incident `GV-2` and one
meeting of incident `GV-1`. -/
def exC3rows : List AttendanceRow :=
  [⟨"GV-2 x", "e@x.com", some "30min"⟩,
   ⟨"GV-1", "e@x.com", some "45min"⟩,
   ⟨"GV-2 y", "e@x.com", some "10min"⟩]

/-- C3 fails on the code: the `transform('nunique')` column is aligned with
the input rows, but it is assigned to the aggregated frame whose index is the
group positions, so sorted group `i` receives the distinct-label count of the
group of input row `i`.  Here the `GV-1` group (one meeting) is stored with
`meetingsAttended = 2` and the `GV-2` group (two meetings) with
`meetingsAttended = 1` — the two values are swapped relative to the
distinct `incidentLabel` counts of the groups, which the last two conjuncts
compute. -/
theorem C3_meetings_attended_misaligned :
    perParticipantOutput exC3rows =
      [(⟨"GV-1", "e@x.com", 45⟩, 2), (⟨"GV-2", "e@x.com", 40⟩, 1)]
    ∧ countDistinct ((rowsWithKey exC3rows ("GV-1", "e@x.com")).map (·.incidentLabel)) = 1
    ∧ countDistinct ((rowsWithKey exC3rows ("GV-2", "e@x.com")).map (·.incidentLabel)) = 2 := by
  decide

/-- One row: participant `p@x.com` attends incident `GV-9` for 30 minutes. -/
def exC4rows : List AttendanceRow := [⟨"GV-9 incident call", "p@x.com", some "30min"⟩]

/-- Role configuration mapping `p@x.com` to `Engineer` at 100 per hour. -/
def exC4cfg : RoleInfo := ⟨[("p@x.com", "Engineer")], [("Engineer", 100)]⟩

/-- C4: the cost calculator resolves each row's role from the employee
mapping with default `Supplier`, prices a row at `parse(duration)/60 × wage`,
and aggregates cost and minutes per (Incident ID, Role); when every row's
role has a wage the group cost is the plain sum of the per-row costs.  An
`Engineer` at 100 per hour attending 30 minutes costs 50. -/
theorem C4_cost_calculator :
    (∀ (cfg : RoleInfo) (r : AttendanceRow) (ρ : String),
      alookup cfg.employees r.participantId = some ρ → rowRole cfg r = ρ)
    ∧ (∀ (cfg : RoleInfo) (r : AttendanceRow),
      alookup cfg.employees r.participantId = none → rowRole cfg r = "Supplier")
    ∧ (∀ (cfg : RoleInfo) (r : AttendanceRow) (w : ℚ),
      rowWage cfg r = some w → rowCost cfg r = some ((rowMinutes r : ℚ) / 60 * w))
    ∧ (∀ (rows : List AttendanceRow) (cfg : RoleInfo),
      (∀ r ∈ rows, (rowWage cfg r).isSome) →
      ∀ g ∈ calculate_total_labor_cost rows cfg,
        g.totalCost =
          ((rows.filter (fun x => costKey cfg x = (g.incidentId, g.role))).map
            (fun x => (rowMinutes x : ℚ) / 60 * (rowWage cfg x).getD 0)).sum
        ∧ g.totalDuration =
          ((rows.filter (fun x => costKey cfg x = (g.incidentId, g.role))).map rowMinutes).sum)
    ∧ calculate_total_labor_cost exC4rows exC4cfg = [⟨"GV-9", "Engineer", 50, 30⟩] := by
  refine ⟨?_, ?_, ?_, ?_, ?_⟩
  · intro cfg r ρ h
    unfold rowRole
    rw [h]
    rfl
  · intro cfg r h
    unfold rowRole
    rw [h]
    rfl
  · intro cfg r w h
    unfold rowCost
    rw [h]
    rfl
  · intro rows cfg hall g hg
    obtain ⟨hc, hd⟩ := calculate_total_labor_cost_spec hg
    have hfil : (rows.filter (fun x => costKey cfg x = (g.incidentId, g.role))).filter
        (fun x => (rowWage cfg x).isSome)
        = rows.filter (fun x => costKey cfg x = (g.incidentId, g.role)) :=
      List.filter_eq_self.mpr (fun x hx => hall x (List.mem_of_mem_filter hx))
    rw [hfil] at hc
    exact ⟨hc, hd⟩
  · have h1 : parse_duration (some "30min") = 30 := by decide
    have h2 : resolve "GV-9 incident call" = "GV-9" := by decide
    simp [calculate_total_labor_cost, costGroupKeys, dedupFirst, dedupAux, sortBy, insortBy,
      costKey, rowRole, rowWage, rowCost, alookup, rowMinutes, exC4rows, exC4cfg, h1, h2]
    norm_num

/-- C4 witness: on the one-row Engineer example, the single output group's
duration sum instantiates the all-wages-defined conjunct. -/
theorem C4_cost_calculator_witness :
    (⟨"GV-9", "Engineer", 50, 30⟩ : IncidentCostAggregate).totalDuration =
      ((exC4rows.filter (fun x => costKey exC4cfg x = ("GV-9", "Engineer"))).map
        rowMinutes).sum := by
  have hmem : (⟨"GV-9", "Engineer", 50, 30⟩ : IncidentCostAggregate)
      ∈ calculate_total_labor_cost exC4rows exC4cfg := by
    rw [C4_cost_calculator.2.2.2.2]
    exact List.mem_singleton.mpr rfl
  exact (C4_cost_calculator.2.2.2.1 exC4rows exC4cfg (by decide) _ hmem).2

/-- One row whose participant is mapped to role `Engineer`. -/
def exC2rows : List AttendanceRow := [⟨"GV-7", "q@x.com", some "30min"⟩]

/-- Role configuration in which the known role `Engineer` has no wage. -/
def exC2cfg : RoleInfo := ⟨[("q@x.com", "Engineer")], [("Supplier", 10)]⟩

/-- C2 fails on the code: with a participant mapped to role `Engineer` and no
wage for `Engineer`, no error of any kind is raised — `calculate_total_labor_cost`
returns normally, the row's wage lookup is `none` (`NaN`), and the group's
cost is silently 0 while its 30 minutes still count. -/
theorem C2_counterexample :
    rowRole exC2cfg ⟨"GV-7", "q@x.com", some "30min"⟩ = "Engineer"
    ∧ rowWage exC2cfg ⟨"GV-7", "q@x.com", some "30min"⟩ = none
    ∧ calculate_total_labor_cost exC2rows exC2cfg = [⟨"GV-7", "Engineer", 0, 30⟩] := by
  refine ⟨by decide, by decide, ?_⟩
  have h1 : parse_duration (some "30min") = 30 := by decide
  have h2 : resolve "GV-7" = "GV-7" := by decide
  simp [calculate_total_labor_cost, costGroupKeys, dedupFirst, dedupAux, sortBy, insortBy,
    costKey, rowRole, rowWage, rowCost, alookup, rowMinutes, exC2rows, exC2cfg, h1, h2]

/-- C2 (amended): a role present in the employee mapping but absent from the
wage mapping raises nothing; the affected row's cost is missing and is
silently excluded from the group's cost sum, while its minutes are still
included in the group's duration sum. -/
theorem C2_amended_missing_wage_silent :
    ∀ (rows : List AttendanceRow) (cfg : RoleInfo) (r : AttendanceRow) (ρ : String),
      r ∈ rows →
      alookup cfg.employees r.participantId = some ρ →
      alookup cfg.wages ρ = none →
      rowCost cfg r = none
      ∧ ∀ g ∈ calculate_total_labor_cost rows cfg,
          g.totalCost =
            (((rows.filter (fun x => costKey cfg x = (g.incidentId, g.role))).filter
                (fun x => (rowWage cfg x).isSome)).map
              (fun x => (rowMinutes x : ℚ) / 60 * (rowWage cfg x).getD 0)).sum
          ∧ g.totalDuration =
            ((rows.filter (fun x => costKey cfg x = (g.incidentId, g.role))).map
              rowMinutes).sum := by
  intro rows cfg r ρ hr hemp hwage
  constructor
  · unfold rowCost rowWage rowRole
    rw [hemp, Option.getD_some, hwage]
    rfl
  · intro g hg
    exact calculate_total_labor_cost_spec hg

/-- C2 witness: the amended statement instantiated on the Engineer-without-
wage configuration — the row's cost is `NaN`/missing, not an error. -/
theorem C2_amended_missing_wage_silent_witness :
    rowCost exC2cfg ⟨"GV-7", "q@x.com", some "30min"⟩ = none :=
  (C2_amended_missing_wage_silent exC2rows exC2cfg ⟨"GV-7", "q@x.com", some "30min"⟩
    "Engineer" (by decide) (by decide) (by decide)).1

/-- C10: a participant absent from the employee mapping is defaulted to role
`Supplier`; when `Supplier` has no wage either, nothing is raised — the row's
cost is missing and excluded from the cost sums, while the row itself still
belongs to its (Incident ID, Role) group, whose duration sum covers all of
the group's rows. -/
theorem C10_supplier_default_missing_wage :
    ∀ (rows : List AttendanceRow) (cfg : RoleInfo) (r : AttendanceRow),
      r ∈ rows →
      alookup cfg.employees r.participantId = none →
      alookup cfg.wages "Supplier" = none →
      rowRole cfg r = "Supplier"
      ∧ rowCost cfg r = none
      ∧ r ∈ rows.filter (fun x => costKey cfg x = costKey cfg r)
      ∧ ∀ g ∈ calculate_total_labor_cost rows cfg,
          g.totalCost =
            (((rows.filter (fun x => costKey cfg x = (g.incidentId, g.role))).filter
                (fun x => (rowWage cfg x).isSome)).map
              (fun x => (rowMinutes x : ℚ) / 60 * (rowWage cfg x).getD 0)).sum
          ∧ g.totalDuration =
            ((rows.filter (fun x => costKey cfg x = (g.incidentId, g.role))).map
              rowMinutes).sum := by
  intro rows cfg r hr hemp hwage
  have hrole : rowRole cfg r = "Supplier" := by
    unfold rowRole
    rw [hemp]
    rfl
  refine ⟨hrole, ?_, ?_, ?_⟩
  · unfold rowCost rowWage
    rw [hrole, hwage]
    rfl
  · exact List.mem_filter.mpr ⟨hr, by simp⟩
  · intro g hg
    exact calculate_total_labor_cost_spec hg

/-- One row for a participant unknown to the employee mapping. -/
def exC10rows : List AttendanceRow := [⟨"GV-3 triage", "s@x.com", some "20min"⟩]

/-- Role configuration with no `Supplier` wage. -/
def exC10cfg : RoleInfo := ⟨[], [("Engineer", 100)]⟩

/-- C10 witness: an unmapped participant with no Supplier wage gets role
`Supplier` and a missing cost, with no error. -/
theorem C10_supplier_default_missing_wage_witness :
    rowRole exC10cfg ⟨"GV-3 triage", "s@x.com", some "20min"⟩ = "Supplier"
    ∧ rowCost exC10cfg ⟨"GV-3 triage", "s@x.com", some "20min"⟩ = none := by
  have h := C10_supplier_default_missing_wage exC10rows exC10cfg
    ⟨"GV-3 triage", "s@x.com", some "20min"⟩ (by decide) (by decide) (by decide)
  exact ⟨h.1, h.2.1⟩
